import Mathlib



/-!
Verification of the cart store and checkout validator of the
`aldos-fake-store` repository, shallowly embedded in Lean 4.

Part 1: the cart store (`src/src/App.jsx`, CartContext section).
The cart is a JS array of minimal line-item snapshots
`{ id, title, price, image, qty }`; mutations go through `cartReducer`
with actions ADD / REMOVE / UPDATE_QTY / CLEAR.
-/



namespace FakeStore



/-- A product as served by the catalog API: `id`, `title`, `description`,
`category`, `price`, `image` (rating omitted; `addItem` never reads it).
Prices are JS numbers, modelled as rationals. -/
structure Product where
  id : Int
  title : String
  price : ℚ
  image : String
  description : String
  category : String
deriving Repr, DecidableEq

/-- A cart line item: the minimal snapshot stored by the reducer's ADD case
(`{ id, title, price, image }` plus `qty`). Quantities are JS numbers fed in
by the UI; modelled as integers. -/
structure Item where
  id : Int
  title : String
  price : ℚ
  image : String
  qty : Int
deriving Repr, DecidableEq

/-- The `minimal` snapshot built in the ADD case, spread together with `qty`:
`{ id: product.id, title: product.title, price: product.price, image: product.image, qty }`. -/
def snapshotOf (p : Product) (q : Int) : Item :=
  { id := p.id, title := p.title, price := p.price, image := p.image, qty := q }

/-- `cartReducer` ADD case: `findIndex` the first item with the product's id;
if found, replace it by a copy with `qty` incremented by the given amount;
otherwise append the minimal snapshot with the given `qty` at the end. -/
def addItem : List Item → Product → Int → List Item
  | [], p, q => [snapshotOf p q]
  | i :: rest, p, q =>
      if i.id = p.id then { i with qty := i.qty + q } :: rest
      else i :: addItem rest p q

/-- `cartReducer` REMOVE case: `state.filter((i) => i.id !== action.payload.id)`. -/
def removeItem (s : List Item) (id : Int) : List Item :=
  s.filter (fun i => i.id != id)

/-- `cartReducer` UPDATE_QTY case: if `qty <= 0` filter the id out, else map
the matching item to a copy with the new `qty`. -/
def updateQty (s : List Item) (id : Int) (q : Int) : List Item :=
  if q ≤ 0 then s.filter (fun i => i.id != id)
  else s.map (fun i => if i.id = id then { i with qty := q } else i)

/-- `cartReducer` CLEAR case: `[]`. -/
def clearCart : List Item := []

/-- Derived `cartCount`: `items.reduce((sum, i) => sum + i.qty, 0)`. -/
def cartCount (s : List Item) : Int :=
  s.foldl (fun sum i => sum + i.qty) 0

/-- Derived `cartTotal`: `items.reduce((sum, i) => sum + i.qty * i.price, 0)`. -/
def cartTotal (s : List Item) : ℚ :=
  s.foldl (fun sum i => sum + (i.qty : ℚ) * i.price) 0

/-- The four action types dispatched to `cartReducer`. -/
inductive CartAction where
  | add (p : Product) (q : Int)
  | remove (id : Int)
  | updateQuantity (id : Int) (q : Int)
  | clear
deriving Repr

/-- One step of `cartReducer`. -/
def applyAction (s : List Item) : CartAction → List Item
  | .add p q => addItem s p q
  | .remove id => removeItem s id
  | .updateQuantity id q => updateQty s id q
  | .clear => clearCart

/-- Run a sequence of actions starting from the empty cart (states reachable
through the reducer from the initial empty state). -/
def runActions (acts : List CartAction) : List Item :=
  acts.foldl applyAction []

/-- The ids held in a cart. -/
def ids (s : List Item) : List Int := s.map Item.id

/-- A sample product used to instantiate the universally quantified theorems. -/
def sampleProduct : Product :=
  { id := 1, title := "A", price := 999/100, image := "a.png",
    description := "demo", category := "misc" }

/-!
Part 2: the checkout validator and order simulator
(`src/components/Checkout.jsx`).
-/

/-- The controlled checkout form state (contact, shipping, mock payment). -/
structure OrderForm where
  firstName : String
  lastName : String
  email : String
  phone : String
  address1 : String
  address2 : String
  city : String
  state : String
  zip : String
  country : String
  cardName : String
  cardNumber : String
  exp : String
  cvc : String
deriving Repr, DecidableEq

/-- The keyed error object produced by `validate`: one optional message per
field that can receive an error (the twelve required fields). -/
structure VErrors where
  firstName : Option String := none
  lastName : Option String := none
  email : Option String := none
  address1 : Option String := none
  city : Option String := none
  state : Option String := none
  zip : Option String := none
  country : Option String := none
  cardName : Option String := none
  cardNumber : Option String := none
  exp : Option String := none
  cvc : Option String := none
deriving Repr, DecidableEq

/-- The empty error object (`Object.keys(e).length === 0`). -/
def noErrors : VErrors := {}

/-- `digitsOnly`: `(s || "").replace(/\D/g, "")` — keep only decimal digits. -/
def digitsOnly (s : String) : String := ⟨s.data.filter Char.isDigit⟩

/-- JS `String.prototype.trim`: drop leading and trailing whitespace. -/
def jsTrim (s : String) : String :=
  ⟨((s.data.dropWhile Char.isWhitespace).reverse.dropWhile Char.isWhitespace).reverse⟩

/-- Scan for a `'.'` that is followed by at least one character
(the `\.\S+$` half of the email pattern's domain). -/
def dotSearch : List Char → Bool
  | [] => false
  | c :: rest => (c == '.' && !rest.isEmpty) || dotSearch rest

/-- The `\S+\.\S+$` part of the email pattern: at least one character,
then a `'.'`, then at least one character. -/
def domainPart : List Char → Bool
  | [] => false
  | _ :: rest => dotSearch rest

/-- Scan for an `'@'` whose remainder matches `domainPart`. -/
def atSearch : List Char → Bool
  | [] => false
  | c :: rest => (c == '@' && domainPart rest) || atSearch rest

/-- The `\S+@\S+\.\S+` backbone: a non-empty local part, an `'@'`, then a
domain part. -/
def localPart : List Char → Bool
  | [] => false
  | _ :: rest => atSearch rest

/-- The email check `/^\S+@\S+\.\S+$/.test(s)`: the string, wholly free of
whitespace, decomposes as `local@domain.tld` with all three parts non-empty
(`\S` matches every non-whitespace character, including further `@` and `.`). -/
def emailMatches (s : String) : Bool :=
  s.data.all (fun c => !c.isWhitespace) && localPart s.data

/-- The expiry check `/^(0?[1-9]|1[0-2])\/\d{2}$/.test(s)`: `M/YY` with
`M` in 1–9, or `MM/YY` with `MM` either `0X` (X in 1–9) or `1Y` (Y in 0–2),
and exactly two trailing digits. -/
def expMatches (s : String) : Bool :=
  match s.data with
  | [m, '/', d1, d2] =>
      ('1' ≤ m && m ≤ '9') && (d1.isDigit && d2.isDigit)
  | [m1, m2, '/', d1, d2] =>
      (((m1 == '0') && ('1' ≤ m2 && m2 ≤ '9'))
        || ((m1 == '1') && ('0' ≤ m2 && m2 ≤ '2')))
        && (d1.isDigit && d2.isDigit)
  | _ => false

/-- First pass of `validate`: `req.forEach((k) => { if (!String(form[k]).trim()) e[k] = "Required"; })`
over the twelve required fields. -/
def requiredPass (f : OrderForm) : VErrors :=
  { firstName := if jsTrim f.firstName = "" then some "Required" else none,
    lastName := if jsTrim f.lastName = "" then some "Required" else none,
    email := if jsTrim f.email = "" then some "Required" else none,
    address1 := if jsTrim f.address1 = "" then some "Required" else none,
    city := if jsTrim f.city = "" then some "Required" else none,
    state := if jsTrim f.state = "" then some "Required" else none,
    zip := if jsTrim f.zip = "" then some "Required" else none,
    country := if jsTrim f.country = "" then some "Required" else none,
    cardName := if jsTrim f.cardName = "" then some "Required" else none,
    cardNumber := if jsTrim f.cardNumber = "" then some "Required" else none,
    exp := if jsTrim f.exp = "" then some "Required" else none,
    cvc := if jsTrim f.cvc = "" then some "Required" else none }

/-- `validate()` from Checkout.jsx: the required pass, then the email, card
number, expiry and CVC checks, each overwriting its field's slot only when its
guard holds (every guard requires the checked string — for card number and CVC,
its digit projection — to be non-empty, mirroring JS truthiness). -/
def validate (f : OrderForm) : VErrors :=
  let e0 := requiredPass f
  let e1 := if f.email ≠ "" ∧ emailMatches f.email = false
    then { e0 with email := some "Invalid email" } else e0
  let card := digitsOnly f.cardNumber
  let e2 := if card ≠ "" ∧ (card.length < 12 ∨ 19 < card.length)
    then { e1 with cardNumber := some "Card number looks wrong" } else e1
  let e3 := if f.exp ≠ "" ∧ expMatches f.exp = false
    then { e2 with exp := some "Use MM/YY" } else e2
  let cvc := digitsOnly f.cvc
  let e4 := if cvc ≠ "" ∧ (cvc.length < 3 ∨ 4 < cvc.length)
    then { e3 with cvc := some "3–4 digits" } else e3
  e4

/-- A fully valid sample form. -/
def validForm : OrderForm :=
  { firstName := "Jane", lastName := "Doe", email := "jane@doe.com", phone := "",
    address1 := "1 Main St", address2 := "", city := "Springfield", state := "IL",
    zip := "62704", country := "United States", cardName := "Jane Doe",
    cardNumber := "4111111111111111", exp := "09/27", cvc := "123" }

/-!
The order-placement flow (`placeOrder` in Checkout.jsx). React state updates
(`setErrors`, `setProcessing`, `setSuccess`) and the cart's `clearCart` are
modelled as a trace of checkout states; the awaited simulated call (the
`setTimeout` delay plus order-id generation from `Math.random`) is abstracted
by an explicit outcome: `.ok orderId` for normal completion, `.error ()` for
an exception thrown during the simulated call.
-/

/-- The component state touched by `placeOrder`: the `processing` flag, the
`success` order id, the inline `errors`, and the cart items. -/
structure CheckoutState where
  processing : Bool
  success : Option String
  errors : VErrors
  items : List Item
deriving Repr, DecidableEq

/-- The state trace of one `placeOrder(e)` run: `setErrors(v)`; early return
if `v` is non-empty; otherwise `setProcessing(true)`, then in a `try` block
the awaited simulated call, `setSuccess(orderId)`, `clearCart()`, and in the
`finally` block `setProcessing(false)` — also when the call throws. -/
def placeOrderTrace (f : OrderForm) (s : CheckoutState) (call : Except Unit String) :
    List CheckoutState :=
  if validate f = noErrors then
    match call with
    | .ok orderId =>
        [{ s with errors := validate f },
          { s with errors := validate f, processing := true },
          { s with errors := validate f, processing := true, success := some orderId },
          { s with
            errors := validate f, processing := true, success := some orderId,
            items := clearCart },
          { s with
            errors := validate f, processing := false, success := some orderId,
            items := clearCart }]
    | .error _ =>
        [{ s with errors := validate f },
          { s with errors := validate f, processing := true },
          { s with errors := validate f, processing := false }]
  else [{ s with errors := validate f }]

/-- The state after `placeOrder` finishes (last state of the trace). -/
def placeOrder (f : OrderForm) (s : CheckoutState) (call : Except Unit String) :
    CheckoutState :=
  (placeOrderTrace f s call).getLastD s

/-- A sample initial checkout state holding one item in the cart. -/
def initialCheckout : CheckoutState :=
  { processing := false, success := none, errors := noErrors,
    items := [snapshotOf sampleProduct 2] }

/-!
Part 3: persistence of the cart snapshot (`loadInitial` and the persist
effect in the CartContext of `src/src/App.jsx`).
-/

/-- A JSON document, as produced by `JSON.parse` / consumed by
`JSON.stringify`: numbers, strings, arrays and objects (ordered key-value
lists). Booleans and null never occur in cart snapshots and are omitted. -/
inductive Json where
  | num (q : ℚ)
  | str (s : String)
  | arr (elems : List Json)
  | obj (members : List (String × Json))

/-- `JSON.stringify` of one line item: the object with the five snapshot
keys in insertion order. -/
def encodeItem (i : Item) : Json :=
  .obj [("id", .num (i.id : ℚ)), ("title", .str i.title), ("price", .num i.price),
    ("image", .str i.image), ("qty", .num (i.qty : ℚ))]

/-- Modelled from the spec: reading one line item back out of a parsed JSON
document (`JSON.parse` itself is a host builtin absent from the repository;
the spec's §9 design note describes the load side as `load() -> Cart option`).
A document of any other shape is rejected. -/
def decodeItem : Json → Option Item
  | .obj [("id", .num idv), ("title", .str t), ("price", .num p),
      ("image", .str im), ("qty", .num q)] =>
      if idv.den = 1 ∧ q.den = 1 then
        some { id := idv.num, title := t, price := p, image := im, qty := q.num }
      else none
  | _ => none

/-- Decode a list of line-item documents, rejecting the whole list if any
element is rejected. -/
def decodeItemList : List Json → Option (List Item)
  | [] => some []
  | j :: rest =>
      match decodeItem j, decodeItemList rest with
      | some i, some l => some (i :: l)
      | _, _ => none

/-- Decode a full cart snapshot: a JSON array of line items. -/
def decodeCart : Json → Option (List Item)
  | .arr elems => decodeItemList elems
  | _ => none

/-- Modelled from the spec: durable storage under the key `"cart:v1"`. The
stored raw text is abstracted to its parse result: `none` = nothing stored,
`some none` = stored text that `JSON.parse` rejects (unparsable),
`some (some j)` = stored text parsing to the document `j`. -/
def loadInitial : Option (Option Json) → List Item
  | none => []
  | some none => []
  | some (some j) => (decodeCart j).getD []

/-- The persist effect: `localStorage.setItem("cart:v1", JSON.stringify(items))`.
`JSON.stringify` of a cart always succeeds and its output reparses to the
same document. -/
def persist (items : List Item) : Option (Option Json) :=
  some (some (.arr (items.map encodeItem)))

/-- The spec's example line item `{id: 1, title: "A", price: 9.99, quantity: 2}`. -/
def exampleItem : Item :=
  { id := 1, title := "A", price := 999/100, image := "a.png", qty := 2 }

/-! Basic lemmas about the cart operations. -/

theorem addItem_absent (s : List Item) (p : Product) (q : Int)
    (h : ∀ i ∈ s, i.id ≠ p.id) :
    addItem s p q = s ++ [snapshotOf p q] := by
  induction s with
  | nil => rfl
  | cons i rest ih =>
      have hi : i.id ≠ p.id := h i (by simp)
      simp only [addItem, if_neg hi, List.cons_append, List.cons.injEq, true_and]
      exact ih (fun j hj => h j (by simp [hj]))

theorem ids_addItem (s : List Item) (p : Product) (q : Int) :
    ids (addItem s p q) =
      if s.any (fun i => i.id == p.id) then ids s else ids s ++ [p.id] := by
  induction s with
  | nil => simp [addItem, ids, snapshotOf]
  | cons i rest ih =>
      by_cases hi : i.id = p.id
      · simp [addItem, ids, hi]
      · simp only [addItem, if_neg hi, ids, List.map_cons, List.any_cons]
        have hbeq : (i.id == p.id) = false := by simp [hi]
        simp only [hbeq, Bool.false_or]
        by_cases hrest : rest.any (fun j => j.id == p.id)
        · simp only [hrest, if_pos] at ih ⊢
          simp [ids] at ih
          simp [ih]
        · simp only [Bool.not_eq_true] at hrest
          simp only [hrest, if_neg, Bool.false_eq_true, not_false_iff] at ih ⊢
          simp [ids] at ih
          simp [ih]

theorem ids_updateQty_pos (s : List Item) (id q : Int) (hq : 0 < q) :
    ids (updateQty s id q) = ids s := by
  unfold updateQty
  rw [if_neg (by omega)]
  unfold ids
  rw [List.map_map]
  apply List.map_congr_left
  intro i _
  by_cases h : i.id = id <;> simp [h, Function.comp]

theorem nodup_ids_applyAction (s : List Item) (a : CartAction)
    (h : (ids s).Nodup) : (ids (applyAction s a)).Nodup := by
  cases a with
  | add p q =>
      simp only [applyAction]
      rw [ids_addItem]
      by_cases hp : s.any (fun i => i.id == p.id)
      · simpa [hp] using h
      · simp only [Bool.not_eq_true] at hp
        simp only [hp, Bool.false_eq_true, if_neg, not_false_iff]
        rw [List.nodup_append]
        refine ⟨h, List.nodup_singleton _, ?_⟩
        intro x hx
        simp only [List.mem_singleton]
        intro hxp
        subst hxp
        simp only [List.any_eq_false, beq_iff_eq] at hp
        obtain ⟨i, hi, hieq⟩ := List.mem_map.mp hx
        exact hp i hi hieq
  | remove id =>
      simp only [applyAction, removeItem]
      exact ((List.filter_sublist s).map Item.id).nodup h
  | updateQuantity id q =>
      simp only [applyAction, updateQty]
      split
      · exact ((List.filter_sublist s).map Item.id).nodup h
      · have : ids (s.map (fun i => if i.id = id then { i with qty := q } else i)) = ids s := by
          unfold ids
          rw [List.map_map]
          apply List.map_congr_left
          intro i _
          by_cases hc : i.id = id <;> simp [hc, Function.comp]
        rw [this]
        exact h
  | clear => simp [applyAction, clearCart, ids]

theorem map_update_of_absent (l : List Item) (pid : Int) (f : Item → Item)
    (h : ∀ j ∈ l, j.id ≠ pid) :
    l.map (fun j => if j.id = pid then f j else j) = l := by
  induction l with
  | nil => rfl
  | cons a rest ih =>
      simp only [List.map_cons, if_neg (h a (by simp))]
      rw [ih (fun j hj => h j (by simp [hj]))]

theorem filter_id_eq_nil (l : List Item) (pid : Int) (h : ∀ j ∈ l, j.id ≠ pid) :
    l.filter (fun j => j.id == pid) = [] := by
  rw [List.filter_eq_nil_iff]
  intro a ha
  simp [h a ha]

theorem nodup_cons_ids (a : Item) (rest : List Item)
    (h : (ids (a :: rest)).Nodup) :
    a.id ∉ ids rest ∧ (ids rest).Nodup := by
  have : ids (a :: rest) = a.id :: ids rest := by simp [ids]
  rw [this, List.nodup_cons] at h
  exact h

theorem addItem_present (s : List Item) (p : Product) (q : Int)
    (hnd : (ids s).Nodup) (i : Item) (hi : i ∈ s) (hid : i.id = p.id) :
    addItem s p q = s.map (fun j => if j.id = p.id then { j with qty := j.qty + q } else j) := by
  induction s with
  | nil => cases hi
  | cons a rest ih =>
      obtain ⟨hnotin, hndrest⟩ := nodup_cons_ids a rest hnd
      by_cases ha : a.id = p.id
      · simp only [addItem, if_pos ha, List.map_cons, if_pos ha, List.cons.injEq, true_and]
        rw [map_update_of_absent]
        intro j hj hjp
        exact hnotin (by rw [← ha] at hjp; rw [← hjp]; exact List.mem_map_of_mem Item.id hj)
      · have hi' : i ∈ rest := by
          cases List.mem_cons.mp hi with
          | inl h => exact absurd (h ▸ hid) ha
          | inr h => exact h
        simp only [addItem, if_neg ha, List.map_cons, if_neg ha, List.cons.injEq, true_and]
        exact ih hndrest hi'

theorem addItem_present_filter (s : List Item) (p : Product) (q : Int)
    (hnd : (ids s).Nodup) (i : Item) (hi : i ∈ s) (hid : i.id = p.id) :
    (addItem s p q).filter (fun j => j.id == p.id) = [{ i with qty := i.qty + q }] := by
  induction s with
  | nil => cases hi
  | cons a rest ih =>
      obtain ⟨hnotin, hndrest⟩ := nodup_cons_ids a rest hnd
      by_cases ha : a.id = p.id
      · have hia : i = a := by
          cases List.mem_cons.mp hi with
          | inl h => exact h
          | inr h =>
              exfalso
              apply hnotin
              have hmem : i.id ∈ ids rest := List.mem_map_of_mem Item.id h
              rw [hid, ← ha] at hmem
              exact hmem
        subst hia
        simp only [addItem, if_pos ha]
        rw [List.filter_cons_of_pos (by simp [ha]),
          filter_id_eq_nil rest p.id
            (fun j hj hjp => hnotin (ha ▸ hjp ▸ List.mem_map_of_mem Item.id hj))]
      · have hi' : i ∈ rest := by
          cases List.mem_cons.mp hi with
          | inl h => exact absurd (h ▸ hid) ha
          | inr h => exact h
        simp only [addItem, if_neg ha]
        rw [List.filter_cons_of_neg (by simp [ha])]
        exact ih hndrest hi'

theorem length_addItem_present (s : List Item) (p : Product) (q : Int)
    (hnd : (ids s).Nodup) (i : Item) (hi : i ∈ s) (hid : i.id = p.id) :
    (addItem s p q).length = s.length := by
  rw [addItem_present s p q hnd i hi hid, List.length_map]

/-- C1: `addItem` on an absent id appends exactly one line item holding only
the snapshot fields (`id`, `title`, `price`, `image`) plus the quantity; on a
present id it increments that item's quantity in place, leaving a single line
item for the id and creating no duplicate entry. -/
theorem addItem_merge_spec (s : List Item) (p : Product) (k : Int) :
    ((∀ i ∈ s, i.id ≠ p.id) →
        addItem s p k = s ++ [snapshotOf p k] ∧
        (addItem s p k).filter (fun j => j.id == p.id) = [snapshotOf p k])
    ∧ ((ids s).Nodup → ∀ i ∈ s, i.id = p.id →
        addItem s p k
          = s.map (fun j => if j.id = p.id then { j with qty := j.qty + k } else j) ∧
        (addItem s p k).filter (fun j => j.id == p.id) = [{ i with qty := i.qty + k }] ∧
        (addItem s p k).length = s.length) := by
  constructor
  · intro habs
    refine ⟨addItem_absent s p k habs, ?_⟩
    rw [addItem_absent s p k habs, List.filter_append, filter_id_eq_nil s p.id habs]
    simp [snapshotOf]
  · intro hnd i hi hid
    exact ⟨addItem_present s p k hnd i hi hid,
      addItem_present_filter s p k hnd i hi hid,
      length_addItem_present s p k hnd i hi hid⟩

/-- Witness for C1 at concrete inputs: adding to an empty cart, then adding
the same product again merges quantities. -/
theorem addItem_merge_spec_witness :
    (addItem [] sampleProduct 1 = [snapshotOf sampleProduct 1] ∧
      (addItem [] sampleProduct 1).filter (fun j => j.id == sampleProduct.id)
        = [snapshotOf sampleProduct 1])
    ∧ (addItem [snapshotOf sampleProduct 1] sampleProduct 2
          = [snapshotOf sampleProduct 1].map
              (fun j => if j.id = sampleProduct.id then { j with qty := j.qty + 2 } else j) ∧
        (addItem [snapshotOf sampleProduct 1] sampleProduct 2).filter
            (fun j => j.id == sampleProduct.id)
          = [{ snapshotOf sampleProduct 1 with qty := (snapshotOf sampleProduct 1).qty + 2 }] ∧
        (addItem [snapshotOf sampleProduct 1] sampleProduct 2).length
          = [snapshotOf sampleProduct 1].length) :=
  ⟨(addItem_merge_spec [] sampleProduct 1).1 (by simp),
    (addItem_merge_spec [snapshotOf sampleProduct 1] sampleProduct 2).2
      (by simp [ids]) (snapshotOf sampleProduct 1) (by simp) rfl⟩

/-- C2 (code bug): the ADD case has no guard on the quantity, so
`addItem(P, 0)` on the empty cart is a reachable state holding a line item
with quantity `0 < 1`, violating the spec's `quantity ≥ 1` invariant. -/
theorem addItem_zero_qty_violates_invariant :
    runActions [CartAction.add sampleProduct 0] = [snapshotOf sampleProduct 0] ∧
    ∃ i ∈ runActions [CartAction.add sampleProduct 0], i.qty < 1 := by
  refine ⟨rfl, ⟨snapshotOf sampleProduct 0, ?_, ?_⟩⟩
  · rw [show runActions [CartAction.add sampleProduct 0] = [snapshotOf sampleProduct 0] from rfl]
    simp
  · simp [snapshotOf]

theorem nodup_ids_runActions (acts : List CartAction) :
    (ids (runActions acts)).Nodup := by
  unfold runActions
  have general : ∀ (l : List CartAction) (s : List Item), (ids s).Nodup →
      (ids (l.foldl applyAction s)).Nodup := by
    intro l
    induction l with
    | nil => intro s hs; simpa using hs
    | cons a rest ih =>
        intro s hs
        simp only [List.foldl_cons]
        exact ih _ (nodup_ids_applyAction s a hs)
  exact general acts [] (by simp [ids])

theorem cartCount_foldl (s : List Item) (a : Int) :
    s.foldl (fun sum i => sum + i.qty) a = a + (s.map Item.qty).sum := by
  induction s generalizing a with
  | nil => simp
  | cons i rest ih => simp [ih, add_assoc]

theorem cartTotal_foldl (s : List Item) (a : ℚ) :
    s.foldl (fun sum i => sum + (i.qty : ℚ) * i.price) a
      = a + (s.map (fun i => (i.qty : ℚ) * i.price)).sum := by
  induction s generalizing a with
  | nil => simp
  | cons i rest ih => simp [ih, add_assoc]

/-- C3: `updateQuantity` with a positive quantity sets the matching item's
quantity; with a non-positive quantity it behaves exactly like `removeItem`,
removing the matching item entirely; on an absent id both `updateQuantity`
and `removeItem` are no-ops (and, being total functions, never throw). -/
theorem updateQty_removeItem_spec (s : List Item) (id q : Int) :
    (0 < q → ∀ i ∈ s, i.id = id → ({ i with qty := q } : Item) ∈ updateQty s id q)
    ∧ (q ≤ 0 → updateQty s id q = removeItem s id)
    ∧ (q ≤ 0 → ∀ i ∈ updateQty s id q, i.id ≠ id)
    ∧ ((∀ i ∈ s, i.id ≠ id) → updateQty s id q = s)
    ∧ (∀ i, i ∈ removeItem s id ↔ i ∈ s ∧ i.id ≠ id)
    ∧ ((∀ i ∈ s, i.id ≠ id) → removeItem s id = s) := by
  refine ⟨?_, ?_, ?_, ?_, ?_, ?_⟩
  · intro hq i hi hid
    unfold updateQty
    rw [if_neg (by omega)]
    have := List.mem_map_of_mem (fun i => if i.id = id then { i with qty := q } else i) hi
    simpa [hid] using this
  · intro hq
    unfold updateQty removeItem
    rw [if_pos hq]
  · intro hq i hi
    unfold updateQty at hi
    rw [if_pos hq] at hi
    simpa using (List.mem_filter.mp hi).2
  · intro habs
    unfold updateQty
    split
    · exact List.filter_eq_self.mpr (fun i hi => by simpa using habs i hi)
    · exact map_update_of_absent s id _ habs
  · intro i
    simp [removeItem, List.mem_filter]
  · intro habs
    exact List.filter_eq_self.mpr (fun i hi => by simpa using habs i hi)

/-- Witness for C3 at concrete inputs. -/
theorem updateQty_removeItem_spec_witness :
    ({ snapshotOf sampleProduct 2 with qty := 5 } : Item)
        ∈ updateQty [snapshotOf sampleProduct 2] 1 5
    ∧ updateQty [snapshotOf sampleProduct 2] 1 0 = removeItem [snapshotOf sampleProduct 2] 1
    ∧ updateQty [snapshotOf sampleProduct 2] 7 (-1) = [snapshotOf sampleProduct 2]
    ∧ removeItem [snapshotOf sampleProduct 2] 7 = [snapshotOf sampleProduct 2] :=
  ⟨(updateQty_removeItem_spec [snapshotOf sampleProduct 2] 1 5).1 (by norm_num)
      (snapshotOf sampleProduct 2) (by simp) rfl,
    (updateQty_removeItem_spec [snapshotOf sampleProduct 2] 1 0).2.1 (by norm_num),
    (updateQty_removeItem_spec [snapshotOf sampleProduct 2] 7 (-1)).2.2.2.1
      (by intro i hi; simp at hi; simp [hi, snapshotOf, sampleProduct]),
    (updateQty_removeItem_spec [snapshotOf sampleProduct 2] 7 0).2.2.2.2.2
      (by intro i hi; simp at hi; simp [hi, snapshotOf, sampleProduct])⟩

/-- C4: `cartCount` is the sum of quantities and `cartTotal` the sum of
`quantity * price` over the line items; both are recomputed from the state
after every reducer action; reading `cartTotal` twice without an intervening
mutation yields the same value; and CLEAR yields the empty cart with
count 0 and total 0. -/
theorem derived_totals_spec (s : List Item) :
    cartCount s = (s.map Item.qty).sum
    ∧ cartTotal s = (s.map (fun i => (i.qty : ℚ) * i.price)).sum
    ∧ (∀ a : CartAction,
        cartCount (applyAction s a) = ((applyAction s a).map Item.qty).sum
        ∧ cartTotal (applyAction s a)
            = ((applyAction s a).map (fun i => (i.qty : ℚ) * i.price)).sum)
    ∧ (∀ t₁ t₂ : ℚ, t₁ = cartTotal s → t₂ = cartTotal s → t₁ = t₂)
    ∧ applyAction s CartAction.clear = []
    ∧ cartCount clearCart = 0
    ∧ cartTotal clearCart = 0 := by
  refine ⟨?_, ?_, ?_, ?_, rfl, rfl, rfl⟩
  · unfold cartCount; rw [cartCount_foldl]; omega
  · unfold cartTotal; rw [cartTotal_foldl]; ring
  · intro a
    constructor
    · unfold cartCount; rw [cartCount_foldl]; omega
    · unfold cartTotal; rw [cartTotal_foldl]; ring
  · intro t₁ t₂ h₁ h₂
    rw [h₁, h₂]

/-- Witness for C4 at a concrete cart. -/
theorem derived_totals_spec_witness :
    cartCount [snapshotOf sampleProduct 2]
      = ([snapshotOf sampleProduct 2].map Item.qty).sum
    ∧ cartTotal [snapshotOf sampleProduct 2] = cartTotal [snapshotOf sampleProduct 2] :=
  ⟨(derived_totals_spec [snapshotOf sampleProduct 2]).1,
    (derived_totals_spec [snapshotOf sampleProduct 2]).2.2.2.1
      (cartTotal [snapshotOf sampleProduct 2]) (cartTotal [snapshotOf sampleProduct 2]) rfl rfl⟩

/-- C5: every state reachable from the empty cart through the reducer has at
most one line item per id (the projected id list has no duplicates); one
reducer step preserves that invariant from any state satisfying it; and an
ADD on a present id keeps the id list and the length unchanged (merging
instead of duplicating). -/
theorem cart_unique_id_invariant :
    (∀ acts : List CartAction, (ids (runActions acts)).Nodup)
    ∧ (∀ s : List Item, (ids s).Nodup → ∀ a : CartAction, (ids (applyAction s a)).Nodup)
    ∧ (∀ (s : List Item) (p : Product) (q : Int), p.id ∈ ids s →
        ids (addItem s p q) = ids s ∧ (addItem s p q).length = s.length) := by
  refine ⟨nodup_ids_runActions, fun s h a => nodup_ids_applyAction s a h, ?_⟩
  intro s p q hmem
  have hany : s.any (fun i => i.id == p.id) = true := by
    obtain ⟨i, hi, hieq⟩ := List.mem_map.mp hmem
    exact List.any_eq_true.mpr ⟨i, hi, by simp [hieq]⟩
  have hids : ids (addItem s p q) = ids s := by rw [ids_addItem, if_pos hany]
  refine ⟨hids, ?_⟩
  have := congrArg List.length hids
  simpa [ids] using this

/-- Witness for C5 at concrete inputs: adding the same product twice. -/
theorem cart_unique_id_invariant_witness :
    (ids (runActions [CartAction.add sampleProduct 1, CartAction.add sampleProduct 1])).Nodup
    ∧ ids (addItem [snapshotOf sampleProduct 1] sampleProduct 1)
        = ids [snapshotOf sampleProduct 1]
    ∧ (addItem [snapshotOf sampleProduct 1] sampleProduct 1).length
        = [snapshotOf sampleProduct 1].length :=
  ⟨cart_unique_id_invariant.1 [CartAction.add sampleProduct 1, CartAction.add sampleProduct 1],
    (cart_unique_id_invariant.2.2 [snapshotOf sampleProduct 1] sampleProduct 1
      (by simp [ids, snapshotOf])).1,
    (cart_unique_id_invariant.2.2 [snapshotOf sampleProduct 1] sampleProduct 1
      (by simp [ids, snapshotOf])).2⟩

/-- C10 (frame property): `updateQuantity` with a positive quantity on a
present id only rewrites the quantity of the matching item: the length is
unchanged, every position holds the same item as before (except that the
matching item's `qty` becomes `q`), and the rewritten item keeps its `id`,
`title`, `price` and `image`. -/
theorem updateQty_frame (s : List Item) (id q : Int) (hq : 0 < q) :
    (updateQty s id q).length = s.length
    ∧ (∀ k : Nat, (updateQty s id q).get? k
        = (s.get? k).map (fun i => if i.id = id then { i with qty := q } else i))
    ∧ (∀ (k : Nat) (i : Item), s.get? k = some i → i.id = id →
        (updateQty s id q).get? k = some { i with qty := q })
    ∧ (∀ (k : Nat) (i : Item), s.get? k = some i → i.id ≠ id →
        (updateQty s id q).get? k = some i)
    ∧ (∀ i : Item, ({ i with qty := q } : Item).id = i.id
        ∧ ({ i with qty := q } : Item).title = i.title
        ∧ ({ i with qty := q } : Item).price = i.price
        ∧ ({ i with qty := q } : Item).image = i.image) := by
  have hne : ¬ q ≤ 0 := by omega
  have hget : ∀ k : Nat, (updateQty s id q).get? k
      = (s.get? k).map (fun i => if i.id = id then { i with qty := q } else i) := by
    intro k
    unfold updateQty
    rw [if_neg hne, List.get?_map]
  refine ⟨?_, hget, ?_, ?_, ?_⟩
  · unfold updateQty
    rw [if_neg hne, List.length_map]
  · intro k i hk hid
    rw [hget k, hk]
    simp [hid]
  · intro k i hk hid
    rw [hget k, hk]
    simp [hid]
  · intro i
    exact ⟨rfl, rfl, rfl, rfl⟩

/-- Witness for C10 at a concrete cart. -/
theorem updateQty_frame_witness :
    (updateQty [snapshotOf sampleProduct 1] 1 5).length = [snapshotOf sampleProduct 1].length :=
  (updateQty_frame [snapshotOf sampleProduct 1] 1 5 (by norm_num)).1

/-! Characterization of the scanning matchers as decompositions. -/

theorem dotSearch_iff (l : List Char) :
    dotSearch l = true ↔ ∃ b c : List Char, c ≠ [] ∧ l = b ++ '.' :: c := by
  induction l with
  | nil =>
      simp only [dotSearch, Bool.false_eq_true, false_iff, not_exists]
      intro b c h
      obtain ⟨_, hl⟩ := h
      cases b <;> simp at hl
  | cons x xs ih =>
      constructor
      · intro h
        simp only [dotSearch, Bool.or_eq_true, Bool.and_eq_true, beq_iff_eq,
          Bool.not_eq_true'] at h
        cases h with
        | inl h1 =>
            refine ⟨[], xs, ?_, by rw [h1.1]; rfl⟩
            intro hxs
            rw [hxs] at h1
            simp at h1
        | inr h2 =>
            obtain ⟨b, c, hc, hl⟩ := ih.mp h2
            exact ⟨x :: b, c, hc, by rw [hl]; rfl⟩
      · rintro ⟨b, c, hc, hl⟩
        cases b with
        | nil =>
            simp only [List.nil_append, List.cons.injEq] at hl
            obtain ⟨hx, hxs⟩ := hl
            simp only [dotSearch, Bool.or_eq_true, Bool.and_eq_true, beq_iff_eq,
              Bool.not_eq_true']
            left
            refine ⟨hx, ?_⟩
            rw [hxs]
            cases c with
            | nil => exact absurd rfl hc
            | cons y ys => rfl
        | cons b0 bs =>
            simp only [List.cons_append, List.cons.injEq] at hl
            obtain ⟨_, hxs⟩ := hl
            simp only [dotSearch, Bool.or_eq_true]
            right
            exact ih.mpr ⟨bs, c, hc, hxs⟩

theorem domainPart_iff (l : List Char) :
    domainPart l = true ↔ ∃ b c : List Char, b ≠ [] ∧ c ≠ [] ∧ l = b ++ '.' :: c := by
  cases l with
  | nil =>
      simp only [domainPart, Bool.false_eq_true, false_iff, not_exists]
      intro b c h
      obtain ⟨hb, _, hl⟩ := h
      cases b with
      | nil => exact absurd rfl hb
      | cons b0 bs => simp at hl
  | cons x xs =>
      simp only [domainPart]
      rw [dotSearch_iff xs]
      constructor
      · rintro ⟨b, c, hc, hl⟩
        exact ⟨x :: b, c, by simp, hc, by rw [hl]; rfl⟩
      · rintro ⟨b, c, hb, hc, hl⟩
        cases b with
        | nil => exact absurd rfl hb
        | cons b0 bs =>
            simp only [List.cons_append, List.cons.injEq] at hl
            exact ⟨bs, c, hc, hl.2⟩

theorem atSearch_iff (l : List Char) :
    atSearch l = true ↔ ∃ a rest : List Char, l = a ++ '@' :: rest ∧ domainPart rest = true := by
  induction l with
  | nil =>
      simp only [atSearch, Bool.false_eq_true, false_iff, not_exists]
      intro a rest h
      obtain ⟨hl, _⟩ := h
      cases a <;> simp at hl
  | cons x xs ih =>
      constructor
      · intro h
        simp only [atSearch, Bool.or_eq_true, Bool.and_eq_true, beq_iff_eq] at h
        cases h with
        | inl h1 => exact ⟨[], xs, by rw [h1.1]; rfl, h1.2⟩
        | inr h2 =>
            obtain ⟨a, rest, hl, hd⟩ := ih.mp h2
            exact ⟨x :: a, rest, by rw [hl]; rfl, hd⟩
      · rintro ⟨a, rest, hl, hd⟩
        cases a with
        | nil =>
            simp only [List.nil_append, List.cons.injEq] at hl
            simp only [atSearch, Bool.or_eq_true, Bool.and_eq_true, beq_iff_eq]
            left
            exact ⟨hl.1, hl.2 ▸ hd⟩
        | cons a0 as =>
            simp only [List.cons_append, List.cons.injEq] at hl
            simp only [atSearch, Bool.or_eq_true]
            right
            exact ih.mpr ⟨as, rest, hl.2, hd⟩

theorem localPart_iff (l : List Char) :
    localPart l = true ↔
      ∃ a b c : List Char, a ≠ [] ∧ b ≠ [] ∧ c ≠ [] ∧ l = a ++ '@' :: (b ++ '.' :: c) := by
  cases l with
  | nil =>
      simp only [localPart, Bool.false_eq_true, false_iff, not_exists]
      intro a b c h
      obtain ⟨ha, _, _, hl⟩ := h
      cases a with
      | nil => exact absurd rfl ha
      | cons a0 as => simp at hl
  | cons x xs =>
      simp only [localPart]
      rw [atSearch_iff xs]
      constructor
      · rintro ⟨a, rest, hl, hd⟩
        obtain ⟨b, c, hb, hc, hrest⟩ := (domainPart_iff rest).mp hd
        exact ⟨x :: a, b, c, by simp, hb, hc, by rw [hl, hrest]; rfl⟩
      · rintro ⟨a, b, c, ha, hb, hc, hl⟩
        cases a with
        | nil => exact absurd rfl ha
        | cons a0 as =>
            simp only [List.cons_append, List.cons.injEq] at hl
            exact ⟨as, b ++ '.' :: c, hl.2, (domainPart_iff _).mpr ⟨b, c, hb, hc, rfl⟩⟩

theorem emailMatches_iff (s : String) :
    emailMatches s = true ↔
      (∀ ch ∈ s.data, ch.isWhitespace = false)
      ∧ ∃ a b c : List Char, a ≠ [] ∧ b ≠ [] ∧ c ≠ [] ∧
          s.data = a ++ '@' :: (b ++ '.' :: c) := by
  unfold emailMatches
  rw [Bool.and_eq_true, List.all_eq_true, localPart_iff]
  constructor
  · rintro ⟨hws, hdec⟩
    exact ⟨fun ch hch => by simpa using hws ch hch, hdec⟩
  · rintro ⟨hws, hdec⟩
    exact ⟨fun ch hch => by simpa using hws ch hch, hdec⟩

/-! Characterization of each slot of `validate`'s result. -/

theorem verrors_eq_noErrors_iff (e : VErrors) :
    e = noErrors ↔ e.firstName = none ∧ e.lastName = none ∧ e.email = none
      ∧ e.address1 = none ∧ e.city = none ∧ e.state = none ∧ e.zip = none
      ∧ e.country = none ∧ e.cardName = none ∧ e.cardNumber = none
      ∧ e.exp = none ∧ e.cvc = none := by
  cases e
  simp [noErrors, VErrors.mk.injEq, and_assoc]

theorem validate_firstName_eq (f : OrderForm) :
    (validate f).firstName = (if jsTrim f.firstName = "" then some "Required" else none) := by
  simp only [validate]
  split_ifs <;> simp_all [requiredPass]

theorem validate_lastName_eq (f : OrderForm) :
    (validate f).lastName = (if jsTrim f.lastName = "" then some "Required" else none) := by
  simp only [validate]
  split_ifs <;> simp_all [requiredPass]

theorem validate_address1_eq (f : OrderForm) :
    (validate f).address1 = (if jsTrim f.address1 = "" then some "Required" else none) := by
  simp only [validate]
  split_ifs <;> simp_all [requiredPass]

theorem validate_city_eq (f : OrderForm) :
    (validate f).city = (if jsTrim f.city = "" then some "Required" else none) := by
  simp only [validate]
  split_ifs <;> simp_all [requiredPass]

theorem validate_state_eq (f : OrderForm) :
    (validate f).state = (if jsTrim f.state = "" then some "Required" else none) := by
  simp only [validate]
  split_ifs <;> simp_all [requiredPass]

theorem validate_zip_eq (f : OrderForm) :
    (validate f).zip = (if jsTrim f.zip = "" then some "Required" else none) := by
  simp only [validate]
  split_ifs <;> simp_all [requiredPass]

theorem validate_country_eq (f : OrderForm) :
    (validate f).country = (if jsTrim f.country = "" then some "Required" else none) := by
  simp only [validate]
  split_ifs <;> simp_all [requiredPass]

theorem validate_cardName_eq (f : OrderForm) :
    (validate f).cardName = (if jsTrim f.cardName = "" then some "Required" else none) := by
  simp only [validate]
  split_ifs <;> simp_all [requiredPass]

theorem validate_email_eq (f : OrderForm) :
    (validate f).email
      = (if f.email ≠ "" ∧ emailMatches f.email = false then some "Invalid email"
          else if jsTrim f.email = "" then some "Required" else none) := by
  simp only [validate]
  split_ifs <;> simp_all [requiredPass]

theorem validate_cardNumber_eq (f : OrderForm) :
    (validate f).cardNumber
      = (if digitsOnly f.cardNumber ≠ ""
            ∧ ((digitsOnly f.cardNumber).length < 12 ∨ 19 < (digitsOnly f.cardNumber).length)
          then some "Card number looks wrong"
          else if jsTrim f.cardNumber = "" then some "Required" else none) := by
  simp only [validate]
  split_ifs <;> simp_all [requiredPass]

theorem validate_exp_eq (f : OrderForm) :
    (validate f).exp
      = (if f.exp ≠ "" ∧ expMatches f.exp = false then some "Use MM/YY"
          else if jsTrim f.exp = "" then some "Required" else none) := by
  simp only [validate]
  split_ifs <;> simp_all [requiredPass]

theorem validate_cvc_eq (f : OrderForm) :
    (validate f).cvc
      = (if digitsOnly f.cvc ≠ ""
            ∧ ((digitsOnly f.cvc).length < 3 ∨ 4 < (digitsOnly f.cvc).length)
          then some "3–4 digits"
          else if jsTrim f.cvc = "" then some "Required" else none) := by
  simp only [validate]
  split_ifs <;> simp_all [requiredPass]

theorem opt_ite_eq_none {c : Prop} [Decidable c] {m : String} :
    ((if c then some m else none) = none) ↔ ¬c := by
  split_ifs <;> simp_all

theorem opt_ite2_eq_none {c1 c2 : Prop} [Decidable c1] [Decidable c2] {m1 m2 : String} :
    ((if c1 then some m1 else if c2 then some m2 else none) = none) ↔ (¬c1 ∧ ¬c2) := by
  split_ifs <;> simp_all

theorem fmt_none_iff (x : String) (b : Bool) :
    (¬(x ≠ "" ∧ b = false) ∧ jsTrim x ≠ "") ↔ (jsTrim x ≠ "" ∧ b = true) := by
  constructor
  · rintro ⟨h1, h2⟩
    refine ⟨h2, ?_⟩
    by_cases he : x = ""
    · exact absurd (by rw [he]; rfl) h2
    · cases hb : b with
      | false => exact absurd ⟨he, hb⟩ h1
      | true => rfl
  · rintro ⟨h2, hb⟩
    exact ⟨fun hc => by rw [hb] at hc; exact absurd hc.2 (by simp), h2⟩

theorem guard_none_iff (d t : String) (lo hi : Nat) :
    (¬(d ≠ "" ∧ (d.length < lo ∨ hi < d.length)) ∧ t ≠ "")
      ↔ (t ≠ "" ∧ (d = "" ∨ (lo ≤ d.length ∧ d.length ≤ hi))) := by
  constructor
  · rintro ⟨h1, h2⟩
    refine ⟨h2, ?_⟩
    by_cases hd : d = ""
    · exact Or.inl hd
    · right
      constructor
      · by_contra hlen
        exact h1 ⟨hd, Or.inl (by omega)⟩
      · by_contra hlen
        exact h1 ⟨hd, Or.inr (by omega)⟩
  · rintro ⟨h2, hor⟩
    refine ⟨?_, h2⟩
    rintro ⟨hd, hlen⟩
    cases hor with
    | inl h => exact hd h
    | inr h => omega

theorem validate_eq_noErrors_iff (f : OrderForm) :
    validate f = noErrors ↔
      (jsTrim f.firstName ≠ "" ∧ jsTrim f.lastName ≠ "" ∧ jsTrim f.address1 ≠ ""
        ∧ jsTrim f.city ≠ "" ∧ jsTrim f.state ≠ "" ∧ jsTrim f.zip ≠ ""
        ∧ jsTrim f.country ≠ "" ∧ jsTrim f.cardName ≠ "")
      ∧ (jsTrim f.email ≠ "" ∧ emailMatches f.email = true)
      ∧ (jsTrim f.cardNumber ≠ ""
          ∧ (digitsOnly f.cardNumber = ""
              ∨ (12 ≤ (digitsOnly f.cardNumber).length
                  ∧ (digitsOnly f.cardNumber).length ≤ 19)))
      ∧ (jsTrim f.exp ≠ "" ∧ expMatches f.exp = true)
      ∧ (jsTrim f.cvc ≠ ""
          ∧ (digitsOnly f.cvc = ""
              ∨ (3 ≤ (digitsOnly f.cvc).length ∧ (digitsOnly f.cvc).length ≤ 4))) := by
  rw [verrors_eq_noErrors_iff, validate_firstName_eq, validate_lastName_eq,
    validate_email_eq, validate_address1_eq, validate_city_eq, validate_state_eq,
    validate_zip_eq, validate_country_eq, validate_cardName_eq,
    validate_cardNumber_eq, validate_exp_eq, validate_cvc_eq,
    opt_ite_eq_none, opt_ite_eq_none, opt_ite2_eq_none, opt_ite_eq_none,
    opt_ite_eq_none, opt_ite_eq_none, opt_ite_eq_none, opt_ite_eq_none,
    opt_ite_eq_none, opt_ite2_eq_none, opt_ite2_eq_none, opt_ite2_eq_none]
  constructor
  · rintro ⟨h1, h2, hem, h4, h5, h6, h7, h8, h9, hcard, hexp, hcvc⟩
    refine ⟨⟨h1, h2, h4, h5, h6, h7, h8, h9⟩, ?_, ?_, ?_, ?_⟩
    · exact (fmt_none_iff f.email (emailMatches f.email)).mp ⟨hem.1, hem.2⟩
    · exact (guard_none_iff (digitsOnly f.cardNumber) (jsTrim f.cardNumber) 12 19).mp
        ⟨hcard.1, hcard.2⟩
    · exact (fmt_none_iff f.exp (expMatches f.exp)).mp ⟨hexp.1, hexp.2⟩
    · exact (guard_none_iff (digitsOnly f.cvc) (jsTrim f.cvc) 3 4).mp ⟨hcvc.1, hcvc.2⟩
  · rintro ⟨⟨h1, h2, h4, h5, h6, h7, h8, h9⟩, hem, hcard, hexp, hcvc⟩
    have hem' := (fmt_none_iff f.email (emailMatches f.email)).mpr hem
    have hcard' := (guard_none_iff (digitsOnly f.cardNumber) (jsTrim f.cardNumber) 12 19).mpr hcard
    have hexp' := (fmt_none_iff f.exp (expMatches f.exp)).mpr hexp
    have hcvc' := (guard_none_iff (digitsOnly f.cvc) (jsTrim f.cvc) 3 4).mpr hcvc
    exact ⟨h1, h2, hem', h4, h5, h6, h7, h8, h9, hcard', hexp', hcvc'⟩

/-- C7 counterexample: a non-empty card number containing no digits at all
(`"abc"`). Its digit count (0) lies outside [12, 19], yet `validate` reports
no card-number error, because the code's guard `card && ...` skips the length
check when the stripped string is empty. -/
theorem cardNumber_no_digits_cx :
    ({ validForm with cardNumber := "abc" } : OrderForm).cardNumber ≠ ""
    ∧ (digitsOnly ({ validForm with cardNumber := "abc" } : OrderForm).cardNumber).length < 12
    ∧ (validate { validForm with cardNumber := "abc" }).cardNumber = none :=
  ⟨by decide, by decide, by decide⟩

/-- C7 (amended): `validate` reports the card-number error exactly when the
string obtained by stripping all non-digits is non-empty and its length lies
outside [12, 19]; in particular `"123"` is flagged and `"4111111111111111"`
is not. A non-empty card number with no digits at all is not flagged. -/
theorem cardNumber_check_spec :
    (∀ f : OrderForm,
      (validate f).cardNumber = some "Card number looks wrong"
        ↔ digitsOnly f.cardNumber ≠ ""
          ∧ ((digitsOnly f.cardNumber).length < 12 ∨ 19 < (digitsOnly f.cardNumber).length))
    ∧ (validate { validForm with cardNumber := "123" }).cardNumber
        = some "Card number looks wrong"
    ∧ (validate validForm).cardNumber = none := by
  refine ⟨?_, by decide, by decide⟩
  intro f
  rw [validate_cardNumber_eq]
  constructor
  · intro h
    by_cases h1 : digitsOnly f.cardNumber ≠ ""
        ∧ ((digitsOnly f.cardNumber).length < 12 ∨ 19 < (digitsOnly f.cardNumber).length)
    · exact h1
    · exfalso
      rw [if_neg h1] at h
      split_ifs at h <;> simp_all
  · intro hc
    rw [if_pos hc]

/-- Witness for C7's amended statement at a concrete form. -/
theorem cardNumber_check_spec_witness :
    (validate { validForm with cardNumber := "123" }).cardNumber
      = some "Card number looks wrong" :=
  cardNumber_check_spec.2.1

/-- C8 counterexample: an email consisting of a single space is blank after
trimming, so the claim requires the error `"Required"`, but `validate`
reports `"Invalid email"` for it (the format check overwrites the required
check, since `" "` is truthy in JS). -/
theorem blank_email_not_required_cx :
    jsTrim ({ validForm with email := " " } : OrderForm).email = ""
    ∧ (validate { validForm with email := " " }).email = some "Invalid email"
    ∧ (validate { validForm with email := " " }).email ≠ some "Required" :=
  ⟨by decide, by decide, by decide⟩

/-- C8 (amended): full characterization of `validate`. Each plain required
field carries `"Required"` exactly when blank after trimming; the email and
expiry slots carry their format error whenever the raw string is non-empty
and fails the format check (this shadows `"Required"` for whitespace-only
values), and otherwise `"Required"` exactly when blank; the email format is
the `localpart@domain.tld` shape (whitespace-free, decomposing as
`a ++ '@' :: b ++ '.' :: c` with all parts non-empty); the expiry format is
`MM/YY` with month 1–12 (leading zero optional) and exactly two digits, so
`"13/25"` errors and `"09/27"` does not; and the mapping is empty exactly
when every check passes. -/
theorem validate_field_rules :
    (∀ f : OrderForm,
      (validate f).firstName = (if jsTrim f.firstName = "" then some "Required" else none)
      ∧ (validate f).lastName = (if jsTrim f.lastName = "" then some "Required" else none)
      ∧ (validate f).address1 = (if jsTrim f.address1 = "" then some "Required" else none)
      ∧ (validate f).city = (if jsTrim f.city = "" then some "Required" else none)
      ∧ (validate f).state = (if jsTrim f.state = "" then some "Required" else none)
      ∧ (validate f).zip = (if jsTrim f.zip = "" then some "Required" else none)
      ∧ (validate f).country = (if jsTrim f.country = "" then some "Required" else none)
      ∧ (validate f).cardName = (if jsTrim f.cardName = "" then some "Required" else none)
      ∧ (validate f).email
          = (if f.email ≠ "" ∧ emailMatches f.email = false then some "Invalid email"
              else if jsTrim f.email = "" then some "Required" else none)
      ∧ (validate f).exp
          = (if f.exp ≠ "" ∧ expMatches f.exp = false then some "Use MM/YY"
              else if jsTrim f.exp = "" then some "Required" else none)
      ∧ (validate f).cvc
          = (if digitsOnly f.cvc ≠ ""
                ∧ ((digitsOnly f.cvc).length < 3 ∨ 4 < (digitsOnly f.cvc).length)
              then some "3–4 digits"
              else if jsTrim f.cvc = "" then some "Required" else none)
      ∧ (validate f = noErrors ↔
          (jsTrim f.firstName ≠ "" ∧ jsTrim f.lastName ≠ "" ∧ jsTrim f.address1 ≠ ""
            ∧ jsTrim f.city ≠ "" ∧ jsTrim f.state ≠ "" ∧ jsTrim f.zip ≠ ""
            ∧ jsTrim f.country ≠ "" ∧ jsTrim f.cardName ≠ "")
          ∧ (jsTrim f.email ≠ "" ∧ emailMatches f.email = true)
          ∧ (jsTrim f.cardNumber ≠ ""
              ∧ (digitsOnly f.cardNumber = ""
                  ∨ (12 ≤ (digitsOnly f.cardNumber).length
                      ∧ (digitsOnly f.cardNumber).length ≤ 19)))
          ∧ (jsTrim f.exp ≠ "" ∧ expMatches f.exp = true)
          ∧ (jsTrim f.cvc ≠ ""
              ∧ (digitsOnly f.cvc = ""
                  ∨ (3 ≤ (digitsOnly f.cvc).length ∧ (digitsOnly f.cvc).length ≤ 4)))))
    ∧ (∀ s : String, emailMatches s = true ↔
        (∀ ch ∈ s.data, ch.isWhitespace = false)
        ∧ ∃ a b c : List Char, a ≠ [] ∧ b ≠ [] ∧ c ≠ [] ∧
            s.data = a ++ '@' :: (b ++ '.' :: c))
    ∧ (validate { validForm with exp := "13/25" }).exp = some "Use MM/YY"
    ∧ (validate validForm).exp = none
    ∧ (validate { validForm with email := "not-an-email" }).email = some "Invalid email"
    ∧ validate validForm = noErrors := by
  refine ⟨?_, emailMatches_iff, by decide, by decide, by decide, by decide⟩
  intro f
  exact ⟨validate_firstName_eq f, validate_lastName_eq f, validate_address1_eq f,
    validate_city_eq f, validate_state_eq f, validate_zip_eq f, validate_country_eq f,
    validate_cardName_eq f, validate_email_eq f, validate_exp_eq f, validate_cvc_eq f,
    validate_eq_noErrors_iff f⟩

/-- Witness for C8's amended statement: the fully valid sample form yields
the empty error mapping. -/
theorem validate_field_rules_witness : validate validForm = noErrors :=
  validate_field_rules.2.2.2.2.2

/-- C6: when `validate` reports errors, `placeOrder` only surfaces them — no
order id is produced, the cart is untouched and `processing` is never set.
When `validate` is empty, the run enters the processing state, finishes with
`processing = false` on every exit path (normal completion or an exception in
the simulated call), and on normal completion records the order id and clears
the cart; an exception leaves cart and order id unchanged. -/
theorem placeOrder_spec (f : OrderForm) (s : CheckoutState) (call : Except Unit String) :
    (validate f ≠ noErrors →
      placeOrder f s call = { s with errors := validate f }
      ∧ (placeOrder f s call).items = s.items
      ∧ (placeOrder f s call).success = s.success
      ∧ (placeOrder f s call).processing = s.processing)
    ∧ (validate f = noErrors →
      (∃ t ∈ placeOrderTrace f s call, t.processing = true)
      ∧ (placeOrder f s call).processing = false
      ∧ (∀ oid : String, call = .ok oid →
          (placeOrder f s call).success = some oid
          ∧ (placeOrder f s call).items = [])
      ∧ (call = .error () →
          (placeOrder f s call).items = s.items
          ∧ (placeOrder f s call).success = s.success)) := by
  constructor
  · intro hv
    unfold placeOrder placeOrderTrace
    rw [if_neg hv]
    exact ⟨rfl, rfl, rfl, rfl⟩
  · intro hv
    unfold placeOrder placeOrderTrace
    rw [if_pos hv]
    cases call with
    | ok oid =>
        refine ⟨⟨{ s with errors := validate f, processing := true }, by simp, rfl⟩,
          rfl, ?_, ?_⟩
        · intro o ho
          injection ho with h
          subst h
          exact ⟨rfl, rfl⟩
        · intro h
          cases h
    | error e =>
        cases e
        refine ⟨⟨{ s with errors := validate f, processing := true }, by simp, rfl⟩,
          rfl, ?_, fun _ => ⟨rfl, rfl⟩⟩
        intro o ho
        cases ho

/-- Witness for C6 at concrete inputs: a valid form with a completing call
clears the cart, and an invalid form leaves it untouched. -/
theorem placeOrder_spec_witness :
    ((placeOrder validForm initialCheckout (Except.ok "FS-TEST1")).success
        = some "FS-TEST1"
      ∧ (placeOrder validForm initialCheckout (Except.ok "FS-TEST1")).items = [])
    ∧ (placeOrder validForm initialCheckout (Except.error ())).processing = false
    ∧ (placeOrder { validForm with firstName := "" } initialCheckout
        (Except.ok "FS-TEST2")).items = initialCheckout.items :=
  ⟨((placeOrder_spec validForm initialCheckout (Except.ok "FS-TEST1")).2
      (by decide)).2.2.1 "FS-TEST1" rfl,
    ((placeOrder_spec validForm initialCheckout (Except.error ())).2 (by decide)).2.1,
    ((placeOrder_spec { validForm with firstName := "" } initialCheckout
      (Except.ok "FS-TEST2")).1 (by decide)).2.1⟩

theorem decodeItem_encodeItem (i : Item) : decodeItem (encodeItem i) = some i := by
  unfold encodeItem decodeItem
  simp [Rat.den_intCast, Rat.num_intCast]

theorem decodeItemList_encode (l : List Item) :
    decodeItemList (l.map encodeItem) = some l := by
  induction l with
  | nil => rfl
  | cons i rest ih =>
      simp only [List.map_cons, decodeItemList, decodeItem_encodeItem, ih]

/-- C9: persisting any cart snapshot and reinitializing from storage yields
an equal cart; with no stored snapshot, or an unparsable one, initialization
yields the empty cart. -/
theorem cart_persist_roundtrip :
    (∀ items : List Item, loadInitial (persist items) = items)
    ∧ loadInitial none = []
    ∧ loadInitial (some none) = [] := by
  refine ⟨?_, rfl, rfl⟩
  intro items
  simp only [persist, loadInitial, decodeCart, decodeItemList_encode, Option.getD_some]

/-- Witness for C9 at the spec's example cart. -/
theorem cart_persist_roundtrip_witness :
    loadInitial (persist [exampleItem]) = [exampleItem] :=
  cart_persist_roundtrip.1 _

end FakeStore
